import Mathlib

/-!
# Baseline Guard — verification of the Compliance Detection Engine

A shallow embedding of the core of the Baseline Guard scanner
(`index.js`, the ES-module version): the Feature Compliance Oracle
(`FeatureManager.isCompliant` / `isFalsePositive`), the script scanner
(`JSScanner`: `safeParseJS`/`safeParseTS` via `safeParse`, `scanFile`,
`checkFeature`, the `walk.simple` visitor pass) and the style scanner
(`CSSScanner.scanFiles`), together with theorems settling the frozen
claims about them.

Modelling conventions, fixed once here:

* JS strings are Lean `String`s; `String.prototype.toLowerCase()` is
  `jsToLower` (ASCII case folding via `Char.toLower`, exactly what the
  scanned identifiers and configured targets exercise).
* `parseInt(s, 10)` is `parseInt10` (leading whitespace, optional sign,
  then a non-empty decimal-digit run; `none` plays the role of `NaN`).
* `new Date(s).getFullYear()` is an explicit parameter
  `dateYear : String → Option Int` of every definition that needs it
  (`Date` parsing is a platform builtin, not code of this repository);
  `none` models an invalid date, and `NaN <= targetYear` is `false`,
  which `yearLE` encodes.
* The feature dataset `this.features` (a JSON object) is an association
  list `List (String × FeatureData)`; indexing is `List.lookup` (exact,
  case-sensitive string keys, as JS property access is).
* The memo table `compliantCache` is keyed by
  `featureName:targetBaseline:failOnNewly` — every input the decision
  depends on (the dataset is fixed per run) — so the method is a pure
  function of those inputs and is embedded without the cache.
* Fallible external calls (file reads, the acorn/TS parsers, the
  postcss/doiuse pipeline) are `Option`/`Except`-valued parameters; the
  `try`/`catch` blocks of the source become `match`es on them.
-/

/-- ASCII lowercasing of one character, as `String.prototype.toLowerCase`
acts on the basic-latin identifiers this tool handles. -/
def lowerChar (c : Char) : Char := Char.toLower c

/-- Model of `s.toLowerCase()` for the strings the scanner lowercases
(feature identifiers, config targets, file paths). -/
def jsToLower (s : String) : String := String.mk (s.data.map lowerChar)

theorem char_toNat_ofNat (n : Nat) (h : n < 55296) : (Char.ofNat n).toNat = n := by
  have hv : n.isValidChar := Or.inl h
  simp [Char.ofNat, hv, Char.ofNatAux, Char.toNat, UInt32.ofNat', UInt32.toNat,
    BitVec.toNat_ofNatLt]

theorem lowerChar_idem (c : Char) : lowerChar (lowerChar c) = lowerChar c := by
  unfold lowerChar Char.toLower
  by_cases h : c.toNat ≥ 65 ∧ c.toNat ≤ 90
  · rw [if_pos h, char_toNat_ofNat (c.toNat + 32) (by omega)]
    rw [if_neg (by omega)]
  · rw [if_neg h, if_neg h]

theorem jsToLower_idem (s : String) : jsToLower (jsToLower s) = jsToLower s := by
  have hf : lowerChar ∘ lowerChar = lowerChar := funext lowerChar_idem
  simp only [jsToLower, List.map_map, hf]

/-- Model of `s.endsWith(post)` (computed on the character lists). -/
def strEndsWith (s post : String) : Bool :=
  post.data.isSuffixOf s.data

/-- Model of `s.trim()`: strip leading and trailing whitespace. -/
def jsTrim (s : String) : String :=
  String.mk (((s.data.dropWhile Char.isWhitespace).reverse.dropWhile
    Char.isWhitespace).reverse)

/-- Decimal-digit run accumulator for `parseInt10`. -/
def digitsVal : List Char → Nat → Nat
  | [], acc => acc
  | c :: cs, acc =>
    if c.isDigit then digitsVal cs (acc * 10 + (c.toNat - 48)) else acc

/-- A non-empty leading run of decimal digits, or `none`. -/
def leadDigits : List Char → Option Nat
  | [] => Option.none
  | c :: cs => if c.isDigit then Option.some (digitsVal (c :: cs) 0) else Option.none

/-- Model of `parseInt(s, 10)`: skip leading whitespace, read an optional
sign, then a non-empty run of decimal digits; `none` models `NaN`. -/
def parseInt10 (s : String) : Option Int :=
  match s.data.dropWhile Char.isWhitespace with
  | '-' :: rest => (leadDigits rest).map (fun n => -(n : Int))
  | '+' :: rest => (leadDigits rest).map (fun n => (n : Int))
  | rest => (leadDigits rest).map (fun n => (n : Int))

/-- The `NaN`-aware year comparison: `new Date(bad).getFullYear() <= y` is
`false` because `getFullYear()` is `NaN` there. -/
def yearLE (year? : Option Int) (target : Int) : Bool :=
  match year? with
  | Option.none => false
  | Option.some y => y ≤ target

/-- JS truthiness of an optional string field: `undefined`/`null` and the
empty string are falsy. -/
def truthyS : Option String → Bool
  | Option.none => false
  | Option.some s => !s.isEmpty

/-- Model of `a || b || null` on optional string fields: the first truthy operand,
else `none`. -/
def jsOrS (a b : Option String) : Option String :=
  if truthyS a then a else if truthyS b then b else Option.none

/-- The `status` sub-object of a dataset record, with the four date-ish
fields the oracle reads.  `baseline` is the `status.baseline` value when
it is a string; the dataset also uses `false`/absent there, which compare
unequal to `'high'`/`'low'` exactly as `none` does here. -/
structure FeatureStatus where
  baseline : Option String
  baseline_low_date : Option String
  low : Option String
  baseline_high_date : Option String
  high : Option String
deriving DecidableEq, Repr

/-- The empty status object that the `status ||` fallback produces. -/
def emptyStatus : FeatureStatus :=
  { baseline := Option.none, baseline_low_date := Option.none, low := Option.none,
    baseline_high_date := Option.none, high := Option.none }

/-- One dataset record; `status` may be absent (`featureData.status || {}`). -/
structure FeatureData where
  status : Option FeatureStatus
deriving DecidableEq, Repr

/-- The resolved configuration fields the compliance core consumes
(`Config` also resolves reporting/glob settings, which the core never
reads): `target-baseline`, `fail-on-newly`, `jsWhitelist` and
`jsSettings.ignoreCommonFalsePositives`. -/
structure Config where
  targetBaseline : String
  failOnNewly : Bool
  jsWhitelist : List String
  ignoreCommonFalsePositives : Bool
deriving DecidableEq, Repr

namespace FeatureManager

/-- The pure body of `FeatureManager.isCompliant(featureName)` once
`this.features` is loaded, line by line: unknown feature → `true`;
`target === 'widely'` → `baseline === 'high'`; `target === 'newly'` →
`baseline === 'high' || (baseline === 'low' && !failOnNewly)`; otherwise
parse the target as a year and compare it with the year of
`baseline_low_date || low`, else of `baseline_high_date || high`, else
fall back to `baseline === 'high'`; an unparseable target yields `false`
(the source comment reads `Unknown target -> conservative`). -/
def isCompliantCore (dateYear : String → Option Int)
    (features : List (String × FeatureData)) (cfg : Config)
    (featureName : String) : Bool :=
  match features.lookup featureName with
  | Option.none => true
  | Option.some featureData =>
    let status := featureData.status.getD emptyStatus
    let baseline := status.baseline
    let lowDate := jsOrS status.baseline_low_date status.low
    let highDate := jsOrS status.baseline_high_date status.high
    let target := jsToLower cfg.targetBaseline
    if target = "widely" then baseline = Option.some "high"
    else if target = "newly" then
      baseline = Option.some "high" ||
        (baseline = Option.some "low" && !cfg.failOnNewly)
    else
      match parseInt10 target with
      | Option.some targetYear =>
        match lowDate with
        | Option.some s => yearLE (dateYear s) targetYear
        | Option.none =>
          match highDate with
          | Option.some s => yearLE (dateYear s) targetYear
          | Option.none => baseline = Option.some "high"
      | Option.none => false

/-- The only `throw` in `isCompliant` fires when `this.features` is still
`null` (`Features not loaded`); no other input makes the method throw. -/
inductive OracleErr where
  | featuresNotLoaded
deriving DecidableEq, Repr

/-- Method `FeatureManager.isCompliant` with its error channel:
`if (!this.features) throw ...`, else the pure decision above. -/
def isCompliant (dateYear : String → Option Int)
    (features? : Option (List (String × FeatureData))) (cfg : Config)
    (featureName : String) : Except OracleErr Bool :=
  match features? with
  | Option.none => Except.error OracleErr.featuresNotLoaded
  | Option.some features =>
    Except.ok (isCompliantCore dateYear features cfg featureName)

/-- Method `FeatureManager.isFalsePositive(featureName)`:
`jsSettings.ignoreCommonFalsePositives && falsePositives.has(featureName.toLowerCase())`,
where `falsePositives = new Set(config.jsWhitelist || [])`. -/
def isFalsePositive (cfg : Config) (featureName : String) : Bool :=
  cfg.ignoreCommonFalsePositives && cfg.jsWhitelist.contains (jsToLower featureName)

/-- The baseline level of a record as the spec's data model views it. -/
def baselineOf (fd : FeatureData) : Option String :=
  (fd.status.getD emptyStatus).baseline

/-- The record's `baselineLowDate` as the oracle reads it
(`status.baseline_low_date || status.low || null`). -/
def lowDateOf (fd : FeatureData) : Option String :=
  jsOrS (fd.status.getD emptyStatus).baseline_low_date (fd.status.getD emptyStatus).low

/-- The record's `baselineHighDate` as the oracle reads it
(`status.baseline_high_date || status.high || null`). -/
def highDateOf (fd : FeatureData) : Option String :=
  jsOrS (fd.status.getD emptyStatus).baseline_high_date (fd.status.getD emptyStatus).high

/-- The year rule exactly as claim C2 words it, minus the strictness
override: the comparison year comes from `baselineLowDate` if present,
else `baselineHighDate` if present (compliant iff that year `<= Y`,
`NaN`-aware); with both dates absent, fall back to the `"widely"` rule. -/
def yearRuleClaim (dateYear : String → Option Int) (fd : FeatureData) (targetYear : Int) :
    Bool :=
  match lowDateOf fd with
  | Option.some s => yearLE (dateYear s) targetYear
  | Option.none =>
    match highDateOf fd with
    | Option.some s => yearLE (dateYear s) targetYear
    | Option.none => baselineOf fd = Option.some "high"

/-- A policy target that is neither `"widely"` nor `"newly"` nor a
parseable year, after the lowercasing the oracle applies. -/
def invalidTarget (cfg : Config) : Prop :=
  jsToLower cfg.targetBaseline ≠ "widely" ∧
  jsToLower cfg.targetBaseline ≠ "newly" ∧
  parseInt10 (jsToLower cfg.targetBaseline) = Option.none

end FeatureManager

section OracleClaims

open FeatureManager

/-- Concrete inputs for the oracle claims. -/
def dyNone : String → Option Int := fun _ => Option.none

/-- A `getFullYear` model that knows the one date the C2 scenario uses. -/
def dy2021 : String → Option Int :=
  fun s => if s = "2021-09-01" then Option.some 2021 else Option.none

/-- Status with `baseline: 'low'` and `baseline_low_date: '2021-09-01'`. -/
def stLow2021 : FeatureStatus :=
  { baseline := Option.some "low", baseline_low_date := Option.some "2021-09-01",
    low := Option.none, baseline_high_date := Option.none, high := Option.none }

/-- A record with `baseline: 'low'` and `baseline_low_date: '2021-09-01'`. -/
def fdLow2021 : FeatureData := { status := Option.some stLow2021 }

/-- A record whose `status.baseline` is not a string (`false`/absent). -/
def fdNoBaseline : FeatureData := { status := Option.some emptyStatus }

/-- Status with `baseline: 'high'` and no dates. -/
def stHigh : FeatureStatus :=
  { baseline := Option.some "high", baseline_low_date := Option.none,
    low := Option.none, baseline_high_date := Option.none, high := Option.none }

/-- A record with `baseline: 'high'`. -/
def fdHigh : FeatureData := { status := Option.some stHigh }

/-- Dataset with the single feature `at`, documented as low/2021. -/
def featuresAt : List (String × FeatureData) := [("at", fdLow2021)]

/-- Config with the unparseable target `"enhanced"`. -/
def cfgEnhanced : Config :=
  { targetBaseline := "enhanced", failOnNewly := true, jsWhitelist := [],
    ignoreCommonFalsePositives := true }

/-- C1 counterexample: with the invalid target `"enhanced"` and a loaded
dataset, `isCompliant` does not throw anything — it answers `.ok false`
for the known feature `at` (and `.ok true` for an unknown id), so no
`ConfigError` aborts the run. -/
theorem c1_counterexample :
    jsToLower cfgEnhanced.targetBaseline ≠ "widely" ∧
    jsToLower cfgEnhanced.targetBaseline ≠ "newly" ∧
    parseInt10 (jsToLower cfgEnhanced.targetBaseline) = Option.none ∧
    isCompliant dyNone (Option.some featuresAt) cfgEnhanced "at" = Except.ok false ∧
    isCompliant dyNone (Option.some featuresAt) cfgEnhanced "unheard-of" =
      Except.ok true := by
  refine ⟨by decide, by decide, by decide, rfl, rfl⟩

/-- C1 (amended): for every policy whose targetSpec is neither `"widely"`
nor `"newly"` nor a parseable year, the loaded oracle raises no error at
all; it returns a compliance decision — `true` exactly for ids absent
from the dataset, `false` for every known id (`Unknown target ->
conservative`). -/
theorem c1_invalid_target_returns_decision
    (dateYear : String → Option Int) (features : List (String × FeatureData))
    (cfg : Config) (id : String) (h : invalidTarget cfg) :
    isCompliant dateYear (Option.some features) cfg id =
      Except.ok ((features.lookup id).isNone) := by
  obtain ⟨hw, hn, hp⟩ := h
  cases hl : features.lookup id with
  | none => simp [isCompliant, isCompliantCore, hl]
  | some fd => simp [isCompliant, isCompliantCore, hl, if_neg hw, if_neg hn, hp]

/-- Witness for `c1_invalid_target_returns_decision` at the concrete
invalid target `"enhanced"`. -/
theorem c1_invalid_target_returns_decision_witness :
    isCompliant dyNone (Option.some featuresAt) cfgEnhanced "at" =
      Except.ok ((featuresAt.lookup "at").isNone) :=
  c1_invalid_target_returns_decision dyNone featuresAt cfgEnhanced "at"
    ⟨by decide, by decide, by decide⟩

/-- Config asking for year target `2023` with strictness on. -/
def cfg2023strict : Config :=
  { targetBaseline := "2023", failOnNewly := true, jsWhitelist := [],
    ignoreCommonFalsePositives := true }

/-- C2 counterexample: `at` has `baselineLevel = low` and low-date year
2021; under year target `2023` with `strict == true` the claim forces
non-compliance, but the code has no strictness override in the year
branch and answers compliant (`2021 <= 2023`). -/
theorem c2_counterexample :
    cfg2023strict.failOnNewly = true ∧
    baselineOf fdLow2021 = Option.some "low" ∧
    featuresAt.lookup "at" = Option.some fdLow2021 ∧
    parseInt10 (jsToLower cfg2023strict.targetBaseline) = Option.some 2023 ∧
    isCompliantCore dy2021 featuresAt cfg2023strict "at" = true := by
  refine ⟨rfl, by decide, by decide, by decide, by decide⟩

/-- C2 (amended): for every feature record and year target `Y`, the
decision compares `Y` with the year of `baselineLowDate` if present, else
of `baselineHighDate` if present (compliant iff that year `<= Y`), and
falls back to the `"widely"` rule when both dates are absent; the
strictness flag has no effect in the year branch — the same decision
comes out for every value of `failOnNewly`, even for a low-baseline
feature whose date comparison passes. -/
theorem c2_year_rule_amended
    (dateYear : String → Option Int) (features : List (String × FeatureData))
    (cfg : Config) (id : String) (fd : FeatureData) (targetYear : Int)
    (hlook : features.lookup id = Option.some fd)
    (hw : jsToLower cfg.targetBaseline ≠ "widely")
    (hn : jsToLower cfg.targetBaseline ≠ "newly")
    (hy : parseInt10 (jsToLower cfg.targetBaseline) = Option.some targetYear) :
    isCompliantCore dateYear features cfg id = yearRuleClaim dateYear fd targetYear ∧
    ∀ b : Bool,
      isCompliantCore dateYear features { cfg with failOnNewly := b } id =
        yearRuleClaim dateYear fd targetYear := by
  have main : ∀ b : Bool,
      isCompliantCore dateYear features { cfg with failOnNewly := b } id =
        yearRuleClaim dateYear fd targetYear := by
    intro b
    simp only [isCompliantCore, hlook, if_neg hw, if_neg hn, hy]
    unfold yearRuleClaim lowDateOf highDateOf baselineOf
    rfl
  refine ⟨?_, main⟩
  have h := main cfg.failOnNewly
  simpa using h

/-- Witness for `c2_year_rule_amended` on the concrete `at`/2023 inputs. -/
theorem c2_year_rule_amended_witness :
    isCompliantCore dy2021 featuresAt cfg2023strict "at" =
      yearRuleClaim dy2021 fdLow2021 2023 ∧
    ∀ b : Bool,
      isCompliantCore dy2021 featuresAt { cfg2023strict with failOnNewly := b } "at" =
        yearRuleClaim dy2021 fdLow2021 2023 :=
  c2_year_rule_amended dy2021 featuresAt cfg2023strict "at" fdLow2021 2023
    (by decide) (by decide) (by decide) (by decide)

/-- C3: under `"widely"` a known feature is compliant iff its baseline is
`high` (`low` and `none` fail); under `"newly"` iff it is `high`, or `low`
with strictness off; and an id absent from the dataset is compliant under
every policy whatsoever. -/
theorem c3_widely_newly_unknown
    (dateYear : String → Option Int) (features : List (String × FeatureData))
    (cfg : Config) (id : String) :
    ((jsToLower cfg.targetBaseline = "widely") →
      ∀ fd, features.lookup id = Option.some fd →
        isCompliantCore dateYear features cfg id =
          (baselineOf fd = Option.some "high" : Bool)) ∧
    ((jsToLower cfg.targetBaseline = "newly") →
      ∀ fd, features.lookup id = Option.some fd →
        isCompliantCore dateYear features cfg id =
          (baselineOf fd = Option.some "high" ||
            (baselineOf fd = Option.some "low" && !cfg.failOnNewly))) ∧
    (features.lookup id = Option.none →
      isCompliantCore dateYear features cfg id = true) := by
  refine ⟨?_, ?_, ?_⟩
  · intro ht fd hfd
    simp only [isCompliantCore, hfd, if_pos ht]
    rfl
  · intro ht fd hfd
    have hne : jsToLower cfg.targetBaseline ≠ "widely" := by
      rw [ht]; decide
    simp only [isCompliantCore, hfd, if_neg hne, if_pos ht]
    rfl
  · intro hfd
    simp only [isCompliantCore, hfd]

/-- A `"widely"` policy for the C3 witness. -/
def cfgWidely : Config :=
  { targetBaseline := "widely", failOnNewly := false, jsWhitelist := [],
    ignoreCommonFalsePositives := true }

/-- Witness for `c3_widely_newly_unknown`: under `"widely"` the low
feature `at` is ruled non-compliant, and the absent id `zz` compliant. -/
theorem c3_widely_newly_unknown_witness :
    isCompliantCore dyNone featuresAt cfgWidely "at" =
      (baselineOf fdLow2021 = Option.some "high" : Bool) ∧
    isCompliantCore dyNone featuresAt cfgWidely "zz" = true := by
  constructor
  · exact (c3_widely_newly_unknown dyNone featuresAt cfgWidely "at").1
      (by decide) fdLow2021 (by decide)
  · exact (c3_widely_newly_unknown dyNone featuresAt cfgWidely "zz").2.2 (by decide)

/-- Dataset whose only key is the all-lowercase `at` with no baseline. -/
def featuresAtNone : List (String × FeatureData) := [("at", fdNoBaseline)]

/-- C8 counterexample: `isCompliant` itself never case-normalizes its
lookup, so querying `At` misses the dataset entry `at` (open-world
`true`) while querying `at` finds it (non-compliant `false`): the claimed
equation `isCompliant(id) = isCompliant(lowercase(id))` fails at
`id = "At"`. -/
theorem c8_counterexample :
    jsToLower "At" = "at" ∧
    isCompliantCore dyNone featuresAtNone cfgWidely "At" = true ∧
    isCompliantCore dyNone featuresAtNone cfgWidely (jsToLower "At") = false := by
  refine ⟨by decide, by decide, by decide⟩

end OracleClaims

/-!
## The script scanner

The AST below is the fragment of the ESTree grammar that acorn (with the
JSX extension) produces for the constructs the claims exercise; every
node records `loc.start.line` (the parser runs with `locations: true`,
so `node.loc?.start?.line` is always the positive line number and never
falls through to `'unknown'` on these nodes).

`walk.simple` of acorn-walk drives the visitor pass.  Facts about that
library that the embedding mirrors:

* dispatch is post-order — for each node the base walker first recurses
  into the children, then the matching visitor from the supplied table
  runs;
* entries of the visitor table whose key is not a node type never run:
  the five `"...:exit"` entries registered by `scanFile` match no node,
  so the context flags, once set, are never cleared;
* the base walker visits declaration ids and assignment targets under
  the `Pattern` override: a bare `Identifier` there is dispatched as
  `VariablePattern` (ignored, and no `VariablePattern` visitor exists),
  while a `MemberExpression` there is walked through as an ordinary
  member expression, visitor included;
* acorn builds no `parent` links and `walk.simple` adds none, so the
  `Identifier` visitor's opening guard
  `if (!node || !node.type || !node.parent) return;` always returns:
  the visitor extracts nothing, and the context flags it would consult
  are written but never read;
* a non-computed member's property `Identifier` is not itself visited
  by the base walker (only computed properties are walked).
-/

/-- An import specifier as the `ImportDeclaration` visitor distinguishes
them: only a named `ImportSpecifier` with a truthy `imported.name`
contributes a candidate. -/
inductive ImportSpec where
  | importSpecifier (imported : String)
  | importDefaultSpecifier (localName : String)
  | importNamespaceSpecifier (localName : String)
deriving DecidableEq, Repr

mutual
/-- ESTree nodes (acorn shapes) for the constructs the claims need.  Each
constructor carries `loc.start.line`. -/
inductive Node where
  | program (body : NodeList) (line : Nat)
  | exprStmt (expression : Node) (line : Nat)
  | variableDeclaration (declarations : NodeList) (line : Nat)
  | variableDeclarator (id : Node) (init : ONode) (line : Nat)
  | assignmentExpression (left : Node) (right : Node) (line : Nat)
  | memberExpression (object : Node) (property : Node) (computed : Bool) (line : Nat)
  | callExpression (callee : Node) (args : NodeList) (line : Nat)
  | identifier (name : String) (line : Nat)
  | literal (line : Nat)
  | awaitExpression (argument : Node) (line : Nat)
  | yieldExpression (argument : ONode) (line : Nat)
  | importDeclaration (specifiers : List ImportSpec) (source : Node) (line : Nat)
/-- An optional child node (`init`, `yield` argument). -/
inductive ONode where
  | noneO
  | someO (node : Node)
/-- A list of sibling nodes (statement bodies, declarator lists, call
arguments). -/
inductive NodeList where
  | nilN
  | consN (head : Node) (tail : NodeList)
end

/-- The `node.loc.start.line` of any node. -/
def nodeLine : Node → Nat
  | .program _ l => l
  | .exprStmt _ l => l
  | .variableDeclaration _ l => l
  | .variableDeclarator _ _ l => l
  | .assignmentExpression _ _ l => l
  | .memberExpression _ _ _ l => l
  | .callExpression _ _ l => l
  | .identifier _ l => l
  | .literal l => l
  | .awaitExpression _ l => l
  | .yieldExpression _ l => l
  | .importDeclaration _ _ l => l

/-- Is the node a bare `Identifier`?  Drives the inlined `base.Pattern`
dispatch of acorn-walk: a binding-position `Identifier` is dispatched as
`VariablePattern` (ignored, no visitor), anything else is walked through
in full. -/
def isIdentNode : Node → Bool
  | .identifier _ _ => true
  | _ => false

/-- One violation record, with the fields either scanner fills
(`context` only for JS records, `message` only for CSS records). -/
structure Violation where
  file : String
  line : Option Nat
  feature : String
  type : String
  context : Option String
  message : Option String
deriving DecidableEq, Repr

/-- The line as it appears in the dedup key and the record: a number, or
`'unknown'` when the location is missing. -/
def lineStr : Option Nat → String
  | Option.some n => toString n
  | Option.none => "unknown"

/-- The `(file, line, featureId)` dedup key of a record, concatenated the
way `checkFeature` builds it. -/
def keyOf (v : Violation) : String :=
  v.file ++ ":" ++ lineStr v.line ++ ":" ++ v.feature

namespace JSScanner

/-- Method `JSScanner.getNodeContext(node)`. -/
def getNodeContext : Node → String
  | .callExpression _ _ _ => "function_call"
  | .memberExpression _ _ _ _ => "property_access"
  | .importDeclaration _ _ _ => "import"
  | _ => "usage"

/-- The run-wide inputs one `scanFile` walk reads: the `Date` model, the
loaded dataset, the resolved config, and the file being scanned. -/
structure ScanEnv where
  dateYear : String → Option Int
  features : List (String × FeatureData)
  cfg : Config
  filePath : String

/-- The mutable state of one walk: the scanner's persistent `seenKeys`
set, the per-file `violations` array, and the `context` flags.  The
flags are faithfully written by the `VariableDeclarator` /
`AssignmentExpression` visitors (and never cleared, the `:exit` entries
being dead), but nothing observable ever reads them: their only reader
sits in the `Identifier` visitor after its always-taken `!node.parent`
return.  `currentFunction` is likewise write-only and is omitted with
the function-node visitors that set it. -/
structure ScanState where
  seenKeys : List String
  violations : List Violation
  inDeclaration : Bool
  inAssignment : Bool
deriving Repr

/-- Method `JSScanner.checkFeature(featureName, node, filePath, violations)`:
lowercase the name, drop whitelisted and compliant candidates, then
dedup-insert a record keyed `file:line:feature`. -/
def checkFeature (env : ScanEnv) (featureName : String) (node : Node)
    (st : ScanState) : ScanState :=
  let normalizedName := jsToLower featureName
  if FeatureManager.isFalsePositive env.cfg normalizedName then st
  else if FeatureManager.isCompliantCore env.dateYear env.features env.cfg
      normalizedName then st
  else
    let line := nodeLine node
    let key := env.filePath ++ ":" ++ toString line ++ ":" ++ normalizedName
    if st.seenKeys.contains key then st
    else
      { st with
        seenKeys := key :: st.seenKeys,
        violations := st.violations ++
          [{ file := env.filePath, line := Option.some line,
             feature := normalizedName, type := "js",
             context := Option.some (getNodeContext node),
             message := Option.none }] }

/-- The `ImportDeclaration` visitor's `specifiers.forEach`: a candidate
per named `ImportSpecifier` whose `imported.name` is truthy, reported
against the declaration node itself. -/
def walkSpecs (env : ScanEnv) (declNode : Node) :
    List ImportSpec → ScanState → ScanState
  | [], st => st
  | sp :: rest, st =>
    let st :=
      match sp with
      | .importSpecifier nm =>
        if nm = "" then st else checkFeature env nm declNode st
      | _ => st
    walkSpecs env declNode rest st

mutual
/-- One `walk.simple` dispatch on a node: base walker first (children,
with the `Pattern`-override rules inlined where the base uses them),
then the visitor registered for the node's type.  The `Identifier`
visitor is the identity: acorn nodes carry no `parent`, so its guard
`if (!node || !node.type || !node.parent) return;` always fires before
any candidate is extracted. -/
def walkNode (env : ScanEnv) (n : Node) (st : ScanState) : ScanState :=
  match n with
  | .program body _ => walkList env body st
  | .exprStmt e _ => walkNode env e st
  | .variableDeclaration ds _ => walkList env ds st
  | .variableDeclarator id init _ =>
    let st := if isIdentNode id then st else walkNode env id st
    let st := walkONode env init st
    { st with inDeclaration := true, inAssignment := true }
  | .assignmentExpression l r _ =>
    let st := if isIdentNode l then st else walkNode env l st
    let st := walkNode env r st
    { st with inAssignment := true }
  | .memberExpression obj prop computed line =>
    let st := walkNode env obj st
    let st := if computed then walkNode env prop st else st
    match prop with
    | .identifier pname _ =>
      if computed then st
      else checkFeature env pname (.memberExpression obj prop computed line) st
    | _ => st
  | .callExpression callee args line =>
    let st := walkNode env callee st
    let st := walkList env args st
    match callee with
    | .identifier cname _ =>
      checkFeature env cname (.callExpression callee args line) st
    | .memberExpression _ cprop _ _ =>
      (match cprop with
       | .identifier pname _ =>
         checkFeature env pname (.callExpression callee args line) st
       | _ => st)
    | _ => st
  | .identifier _ _ => st
  | .literal _ => st
  | .awaitExpression a line =>
    checkFeature env "await" (.awaitExpression a line) (walkNode env a st)
  | .yieldExpression a line =>
    checkFeature env "yield" (.yieldExpression a line) (walkONode env a st)
  | .importDeclaration specs src line =>
    let st := walkNode env src st
    let st := checkFeature env "import" (.importDeclaration specs src line) st
    walkSpecs env (.importDeclaration specs src line) specs st
/-- Walk an optional child. -/
def walkONode (env : ScanEnv) (o : ONode) (st : ScanState) : ScanState :=
  match o with
  | .noneO => st
  | .someO nd => walkNode env nd st
/-- Walk siblings left to right. -/
def walkList (env : ScanEnv) (l : NodeList) (st : ScanState) : ScanState :=
  match l with
  | .nilN => st
  | .consN h t => walkList env t (walkNode env h st)
end

/-- The per-instance state of a `JSScanner`: `this.seenKeys`, shared by
every `scanFile` call on the same instance. -/
structure JSScannerState where
  seenKeys : List String
deriving DecidableEq, Repr

/-- The shared shape of `safeParseJS`/`safeParseTS`: blank source is
skipped (`null`), a parser throw is caught (`null`), otherwise the AST. -/
def safeParse (parse : String → Option Node) (code : String) : Option Node :=
  if jsTrim code = "" then Option.none else parse code

/-- Method `JSScanner.scanFile(filePath)`.  The file system is an association
list (a failing `readFileSync` is the `none` case); `parseJS`/`parseTS`
model the acorn and TS parsers (`none` = throw).  Extension checks pick
the track; anything that is not `.ts`/`.tsx`/`.js`/`.jsx` returns `[]`
untouched.  The walk itself cannot throw in this model (every modelled
node type has a base entry), so the `catch` around `walk.simple` — which
would return the violations pushed so far — stays empty. -/
def scanFile (parseJS parseTS : String → Option Node)
    (dateYear : String → Option Int) (features : List (String × FeatureData))
    (cfg : Config) (fsys : List (String × String))
    (scanner : JSScannerState) (filePath : String) :
    JSScannerState × List Violation :=
  match fsys.lookup filePath with
  | Option.none => (scanner, [])
  | Option.some code =>
    let runAst : Option Node → JSScannerState × List Violation := fun ast? =>
      match ast? with
      | Option.none => (scanner, [])
      | Option.some ast =>
        let env : ScanEnv :=
          { dateYear := dateYear, features := features, cfg := cfg,
            filePath := filePath }
        let st := walkNode env ast
          { seenKeys := scanner.seenKeys, violations := [],
            inDeclaration := false, inAssignment := false }
        ({ seenKeys := st.seenKeys }, st.violations)
    if strEndsWith filePath ".ts" || strEndsWith filePath ".tsx" then
      runAst (safeParse parseTS code)
    else if strEndsWith filePath ".js" || strEndsWith filePath ".jsx" then
      runAst (safeParse parseJS code)
    else (scanner, [])

/-- The driver's JS loop: one scanner instance scans the files in order,
all records pushed into one list. -/
def scanMany (parseJS parseTS : String → Option Node)
    (dateYear : String → Option Int) (features : List (String × FeatureData))
    (cfg : Config) (fsys : List (String × String))
    (scanner : JSScannerState) :
    List String → JSScannerState × List Violation
  | [] => (scanner, [])
  | f :: fs =>
    let r := scanFile parseJS parseTS dateYear features cfg fsys scanner f
    let rest := scanMany parseJS parseTS dateYear features cfg fsys r.1 fs
    (rest.1, r.2 ++ rest.2)

end JSScanner

/-!
## The style scanner and the driver
-/

/-- One usage reported by the doiuse callback: `usage.feature`,
`usage.usage?.start?.line` (absent → `'unknown'`), `usage.message`. -/
structure CSSUsage where
  feature : String
  line : Option Nat
  message : String
deriving DecidableEq, Repr

namespace CSSScanner

/-- Method `CSSScanner.scanFiles(cssFiles)`.  The postcss/doiuse pipeline for
one file is the external `analyze : path → css → Except Unit (List
CSSUsage)`; `Except.error` models a throw anywhere in the per-file `try`
(as does an unreadable file), which is caught, logged and skipped —
the loop then continues with the remaining files.  Blank files are
skipped without error.  Each reported usage is pushed iff the oracle
rules it non-compliant; there is no whitelist check and no dedup on this
path, and the id is passed to the oracle exactly as the analyzer
reported it. -/
def scanFiles (analyze : String → String → Except Unit (List CSSUsage))
    (dateYear : String → Option Int) (features : List (String × FeatureData))
    (cfg : Config) (fsys : List (String × String)) :
    List String → List Violation
  | [] => []
  | f :: fs =>
    (match fsys.lookup f with
     | Option.none => []
     | Option.some css =>
       if jsTrim css = "" then []
       else
         match analyze f css with
         | Except.error _ => []
         | Except.ok usages =>
           usages.foldl (fun acc u =>
             if FeatureManager.isCompliantCore dateYear features cfg u.feature then acc
             else acc ++
               [{ file := f, line := u.line, feature := u.feature,
                  type := "css", context := Option.none,
                  message := Option.some u.message }]) [])
    ++ scanFiles analyze dateYear features cfg fsys fs

end CSSScanner

/-- The driver's file filter for the script scanner,
`/\.(js|jsx|ts|tsx|mjs|cjs)$/i`. -/
def jsFileFilter (f : String) : Bool :=
  let l := jsToLower f
  strEndsWith l ".js" || strEndsWith l ".jsx" || strEndsWith l ".ts" ||
    strEndsWith l ".tsx" || strEndsWith l ".mjs" || strEndsWith l ".cjs"

/-- One whole run of `main`'s scanning phase: a fresh `JSScanner` over
the filtered script files, then the style scanner over the `.css` files,
all records in one list. -/
def runScan (parseJS parseTS : String → Option Node)
    (analyze : String → String → Except Unit (List CSSUsage))
    (dateYear : String → Option Int) (features : List (String × FeatureData))
    (cfg : Config) (fsys : List (String × String)) (files : List String) :
    List Violation :=
  (JSScanner.scanMany parseJS parseTS dateYear features cfg fsys
      { seenKeys := [] } (files.filter jsFileFilter)).2 ++
    CSSScanner.scanFiles analyze dateYear features cfg fsys
      (files.filter (fun f => strEndsWith f ".css"))

/-!
## Concrete scan scenarios

ASTs as acorn produces them (shapes and `loc` lines) for the one-line
sources the claims quote, a demo parser mapping those sources to them,
and a one-file file system per scenario.
-/

/-- Acorn AST of `array.at(-1);` (the unary minus folded into the literal
node — its shape is irrelevant to every claim). -/
def astArrayAt : Node :=
  .program (.consN (.exprStmt (.callExpression
    (.memberExpression (.identifier "array" 1) (.identifier "at" 1) false 1)
    (.consN (.literal 1) .nilN) 1) 1) .nilN) 1

/-- Acorn AST of `at(-1);` — a call whose callee is the bare name `at`. -/
def astBareAt : Node :=
  .program (.consN (.exprStmt (.callExpression
    (.identifier "at" 1) (.consN (.literal 1) .nilN) 1) 1) .nilN) 1

/-- Acorn AST of `obj.at = 5;` — a member expression as assignment
target. -/
def astObjAtAssign : Node :=
  .program (.consN (.exprStmt (.assignmentExpression
    (.memberExpression (.identifier "obj" 1) (.identifier "at" 1) false 1)
    (.literal 1) 1) 1) .nilN) 1

/-- Acorn AST of `const at = 5;` — `at` as declaration binding. -/
def astConstAt : Node :=
  .program (.consN (.variableDeclaration (.consN
    (.variableDeclarator (.identifier "at" 1) (.someO (.literal 1)) 1)
    .nilN) 1) .nilN) 1

/-- Demo parser covering the four quoted sources. -/
def parseDemo : String → Option Node := fun c =>
  if c = "array.at(-1);" then Option.some astArrayAt
  else if c = "at(-1);" then Option.some astBareAt
  else if c = "obj.at = 5;" then Option.some astObjAtAssign
  else if c = "const at = 5;" then Option.some astConstAt
  else Option.none

/-- A parser that always fails (also stands in for the TS track, which no
scenario file reaches). -/
def parseNone : String → Option Node := fun _ => Option.none

/-- The scenario files. -/
def fsysDemo : List (String × String) :=
  [("t.js", "array.at(-1);"), ("u.js", "at(-1);"),
   ("a.js", "obj.at = 5;"), ("c.js", "const at = 5;")]

/-- The record the `array.at(-1);` scan produces. -/
def vAtMember : Violation :=
  { file := "t.js", line := Option.some 1, feature := "at", type := "js",
    context := Option.some "property_access", message := Option.none }

section ScannerClaims

open JSScanner

/-- C4 counterexample: with `at` non-compliant, scanning `obj.at = 5;`
produces a `property_access` violation for the left-hand `at` — the
`MemberExpression` visitor has no assignment exemption, and the base
walker walks an assignment-target member expression like any other. -/
theorem c4_counterexample :
    (scanFile parseDemo parseNone dyNone featuresAtNone cfgWidely fsysDemo
        { seenKeys := [] } "a.js").2 =
      [{ file := "a.js", line := Option.some 1, feature := "at", type := "js",
         context := Option.some "property_access", message := Option.none }] := by
  decide

/-- C4 (amended): an identifier in declaration-binding or
assignment-target position is never extracted as a candidate — the walk
of a declarator or assignment whose binding/target is a bare identifier
is the same whatever that identifier's name, no candidate check included
(first two conjuncts), and `const at = 5;` yields no violation even with
`at` non-compliant (third conjunct); but the exemption does not extend
to member-expression targets: `obj.at = 5;` does produce a
`property_access` violation for `at` (see the counterexample). -/
theorem c4_binding_exemption_amended :
    (∀ (env : ScanEnv) (name : String) (l : Nat) (init : ONode) (l' : Nat)
        (st : ScanState),
      walkNode env (.variableDeclarator (.identifier name l) init l') st =
        { walkONode env init st with inDeclaration := true, inAssignment := true }) ∧
    (∀ (env : ScanEnv) (name : String) (l : Nat) (r : Node) (l' : Nat)
        (st : ScanState),
      walkNode env (.assignmentExpression (.identifier name l) r l') st =
        { walkNode env r st with inAssignment := true }) ∧
    (scanFile parseDemo parseNone dyNone featuresAtNone cfgWidely fsysDemo
        { seenKeys := [] } "c.js").2 = [] := by
  refine ⟨?_, ?_, by decide⟩
  · intro env name l init l' st
    simp [walkNode, isIdentNode]
  · intro env name l r l' st
    simp [walkNode, isIdentNode]

/-- Whitelist `["at"]` but the `ignoreCommonFalsePositives` setting
switched off. -/
def cfgNoIgnore : Config :=
  { targetBaseline := "widely", failOnNewly := false, jsWhitelist := ["at"],
    ignoreCommonFalsePositives := false }

/-- C5 counterexample: `at` is in the whitelist (its lowercase form
included), yet with `jsSettings.ignoreCommonFalsePositives = false` the
whitelist test in `isFalsePositive` is short-circuited away and the
non-compliant `at` is reported — another configuration setting does
override the whitelist. -/
theorem c5_counterexample :
    cfgNoIgnore.jsWhitelist.contains (jsToLower "at") = true ∧
    (scanFile parseDemo parseNone dyNone featuresAtNone cfgNoIgnore fsysDemo
        { seenKeys := [] } "t.js").2 = [vAtMember] := by
  refine ⟨by decide, by decide⟩

/-- The duplicate usage report doiuse can make: the same feature used
twice on one source line. -/
def analyzeDupGap : String → String → Except Unit (List CSSUsage) := fun _ _ =>
  Except.ok [{ feature := "gap", line := Option.some 1, message := "gap is unsupported" },
             { feature := "gap", line := Option.some 1, message := "gap is unsupported" }]

/-- Dataset marking `gap` known but below baseline. -/
def featuresGap : List (String × FeatureData) := [("gap", fdNoBaseline)]

/-- The stylesheet of the C6 counterexample run. -/
def fsysCss : List (String × String) := [("s.css", "two gap declarations on one line")]

/-- C6 counterexample: a run whose style analyzer reports `gap` twice at
line 1 of the same file emits two records with the identical
`(file, line, featureId)` key — the CSS path pushes per callback with no
dedup, so the run-wide uniqueness claim fails. -/
theorem c6_counterexample :
    (runScan parseNone parseNone analyzeDupGap dyNone featuresGap cfgWidely
        fsysCss ["s.css"]).map keyOf = ["s.css:1:gap", "s.css:1:gap"] := by
  decide

/-- C8 (amended): case-insensitivity holds on the script-scanner path:
`checkFeature` lowercases the candidate before consulting whitelist and
oracle, so two spellings with the same lowercase form are handled
identically.  (`isCompliant` itself stays case-sensitive — the
counterexample — and the CSS path hands the analyzer's id over
unnormalized.) -/
theorem c8_case_insensitive_amended (env : ScanEnv) (name₁ name₂ : String)
    (node : Node) (st : ScanState) (h : jsToLower name₁ = jsToLower name₂) :
    checkFeature env name₁ node st = checkFeature env name₂ node st := by
  simp only [checkFeature, h]

/-- Witness for `c8_case_insensitive_amended`: `At` and `at` coincide. -/
theorem c8_case_insensitive_amended_witness :
    checkFeature
        { dateYear := dyNone, features := featuresAtNone, cfg := cfgWidely,
          filePath := "t.js" } "At" (.identifier "at" 1)
        { seenKeys := [], violations := [], inDeclaration := false,
          inAssignment := false } =
      checkFeature
        { dateYear := dyNone, features := featuresAtNone, cfg := cfgWidely,
          filePath := "t.js" } "at" (.identifier "at" 1)
        { seenKeys := [], violations := [], inDeclaration := false,
          inAssignment := false } :=
  c8_case_insensitive_amended _ "At" "at" _ _ (by decide)

/-- C9 counterexample: two successive `scanFile` calls on the same
scanner with identical arguments: the first reports the `at` violation,
the second reports nothing — `this.seenKeys` persists on the instance,
so the claimed equality of the two result sequences fails. -/
theorem c9_counterexample :
    (scanFile parseDemo parseNone dyNone featuresAtNone cfgWidely fsysDemo
        { seenKeys := [] } "t.js").2 = [vAtMember] ∧
    (scanFile parseDemo parseNone dyNone featuresAtNone cfgWidely fsysDemo
        (scanFile parseDemo parseNone dyNone featuresAtNone cfgWidely fsysDemo
          { seenKeys := [] } "t.js").1 "t.js").2 = [] ∧
    ([vAtMember] : List Violation) ≠ [] := by
  refine ⟨by decide, by decide, by decide⟩

/-- C10: a readable file whose path ends in none of `.js`, `.jsx`, `.ts`,
`.tsx` comes back as the empty violation list with the scanner state
untouched, for every parser pair, date model, dataset and policy alike —
no parse is attempted and no oracle query made; and the driver's
case-insensitive filter `/\.(js|jsx|ts|tsx|mjs|cjs)$/i` nevertheless
routes `.mjs` and `.cjs` files to this scanner. -/
theorem c10_unknown_extension_skipped :
    (∀ (parseJS parseTS : String → Option Node)
        (dateYear : String → Option Int)
        (features : List (String × FeatureData)) (cfg : Config)
        (fsys : List (String × String)) (scanner : JSScanner.JSScannerState)
        (p code : String),
      fsys.lookup p = Option.some code →
      strEndsWith p ".ts" = false → strEndsWith p ".tsx" = false →
      strEndsWith p ".js" = false → strEndsWith p ".jsx" = false →
      scanFile parseJS parseTS dateYear features cfg fsys scanner p =
        (scanner, [])) ∧
    jsFileFilter "lib/util.mjs" = true ∧
    jsFileFilter "lib/util.cjs" = true := by
  refine ⟨?_, by decide, by decide⟩
  intro parseJS parseTS dateYear features cfg fsys scanner p code hlook h1 h2 h3 h4
  simp [scanFile, hlook, h1, h2, h3, h4]

/-- Witness for `c10_unknown_extension_skipped`: a readable `.mjs` file
is skipped. -/
theorem c10_unknown_extension_skipped_witness :
    scanFile parseDemo parseNone dyNone featuresAtNone cfgWidely
        [("lib/util.mjs", "array.at(-1);")] { seenKeys := [] } "lib/util.mjs" =
      ({ seenKeys := [] }, []) :=
  c10_unknown_extension_skipped.1 parseDemo parseNone dyNone featuresAtNone
    cfgWidely [("lib/util.mjs", "array.at(-1);")] { seenKeys := [] }
    "lib/util.mjs" "array.at(-1);" (by decide) (by decide) (by decide)
    (by decide) (by decide)

end ScannerClaims

/-!
## Per-file failure isolation (C7)
-/

/-- The body of one iteration of the `CSSScanner.scanFiles` loop: the
records contributed by one stylesheet. -/
def cssOne (analyze : String → String → Except Unit (List CSSUsage))
    (dateYear : String → Option Int) (features : List (String × FeatureData))
    (cfg : Config) (fsys : List (String × String)) (f : String) :
    List Violation :=
  match fsys.lookup f with
  | Option.none => []
  | Option.some css =>
    if jsTrim css = "" then []
    else
      match analyze f css with
      | Except.error _ => []
      | Except.ok usages =>
        usages.foldl (fun acc u =>
          if FeatureManager.isCompliantCore dateYear features cfg u.feature then acc
          else acc ++
            [{ file := f, line := u.line, feature := u.feature,
               type := "css", context := Option.none,
               message := Option.some u.message }]) []

theorem cssScanFiles_cons (analyze : String → String → Except Unit (List CSSUsage))
    (dateYear : String → Option Int) (features : List (String × FeatureData))
    (cfg : Config) (fsys : List (String × String)) (f : String) (fs : List String) :
    CSSScanner.scanFiles analyze dateYear features cfg fsys (f :: fs) =
      cssOne analyze dateYear features cfg fsys f ++
        CSSScanner.scanFiles analyze dateYear features cfg fsys fs := by
  rfl

theorem cssScanFiles_append (analyze : String → String → Except Unit (List CSSUsage))
    (dateYear : String → Option Int) (features : List (String × FeatureData))
    (cfg : Config) (fsys : List (String × String)) (l₁ l₂ : List String) :
    CSSScanner.scanFiles analyze dateYear features cfg fsys (l₁ ++ l₂) =
      CSSScanner.scanFiles analyze dateYear features cfg fsys l₁ ++
        CSSScanner.scanFiles analyze dateYear features cfg fsys l₂ := by
  induction l₁ with
  | nil => rfl
  | cons f fs ih =>
    rw [List.cons_append, cssScanFiles_cons, cssScanFiles_cons, ih,
      List.append_assoc]

/-- C7: per-file failures are recoverable and never escape.  Script side:
a readable script file whose source is blank, or on which both parser
tracks fail, comes back from `scanFile` as the empty list with the
scanner untouched (the embedding is a total function — nothing is
raised).  Style side: a stylesheet whose per-file processing raises
(unreadable, or the postcss/doiuse pipeline throws on its non-blank
source) contributes nothing, and the scan of all the files before and
after it is exactly what it would have been — the loop continues. -/
theorem c7_per_file_failures_recoverable :
    (∀ (parseJS parseTS : String → Option Node)
        (dateYear : String → Option Int)
        (features : List (String × FeatureData)) (cfg : Config)
        (fsys : List (String × String)) (scanner : JSScanner.JSScannerState)
        (p code : String),
      fsys.lookup p = Option.some code →
      (jsTrim code = "" ∨
        (parseJS code = Option.none ∧ parseTS code = Option.none)) →
      JSScanner.scanFile parseJS parseTS dateYear features cfg fsys scanner p =
        (scanner, [])) ∧
    (∀ (analyze : String → String → Except Unit (List CSSUsage))
        (dateYear : String → Option Int)
        (features : List (String × FeatureData)) (cfg : Config)
        (fsys : List (String × String)) (l₁ : List String) (p : String)
        (l₂ : List String),
      (fsys.lookup p = Option.none ∨
        ∃ css, fsys.lookup p = Option.some css ∧ jsTrim css ≠ "" ∧
          analyze p css = Except.error ()) →
      CSSScanner.scanFiles analyze dateYear features cfg fsys (l₁ ++ p :: l₂) =
        CSSScanner.scanFiles analyze dateYear features cfg fsys l₁ ++
          CSSScanner.scanFiles analyze dateYear features cfg fsys l₂) := by
  constructor
  · intro parseJS parseTS dateYear features cfg fsys scanner p code hlook hfail
    have hsp : ∀ parse : String → Option Node,
        parse code = Option.none →
        JSScanner.safeParse parse code = Option.none := by
      intro parse hp
      cases hfail with
      | inl he => simp [JSScanner.safeParse, he]
      | inr hb => simp [JSScanner.safeParse, hp]
    simp only [JSScanner.scanFile, hlook]
    by_cases hts : (strEndsWith p ".ts" || strEndsWith p ".tsx") = true
    · cases hfail with
      | inl he => simp [hts, JSScanner.safeParse, he]
      | inr hb => simp [hts, JSScanner.safeParse, hb.2, hb.1]
    · by_cases hjs : (strEndsWith p ".js" || strEndsWith p ".jsx") = true
      · cases hfail with
        | inl he => simp [hts, hjs, JSScanner.safeParse, he]
        | inr hb => simp [hts, hjs, JSScanner.safeParse, hb.1]
      · simp [hts, hjs]
  · intro analyze dateYear features cfg fsys l₁ p l₂ hraise
    rw [cssScanFiles_append, cssScanFiles_cons]
    have hone : cssOne analyze dateYear features cfg fsys p = [] := by
      cases hraise with
      | inl hn => simp [cssOne, hn]
      | inr hs =>
        obtain ⟨css, hc, hnb, herr⟩ := hs
        simp [cssOne, hc, hnb, herr]
    rw [hone, List.nil_append]

/-- Witness for `c7_per_file_failures_recoverable`: a script file that
fails both parser tracks yields nothing, and a run over a stylesheet
whose processing raises equals the run without it. -/
theorem c7_per_file_failures_recoverable_witness :
    JSScanner.scanFile parseNone parseNone dyNone featuresAtNone cfgWidely
        [("x.js", "syntax error ~~~")] { seenKeys := [] } "x.js" =
      ({ seenKeys := [] }, []) ∧
    CSSScanner.scanFiles (fun _ _ => Except.error ()) dyNone featuresGap
        cfgWidely [("bad.css", "broken stylesheet ~~~")] ([] ++ "bad.css" :: []) =
      CSSScanner.scanFiles (fun _ _ => Except.error ()) dyNone featuresGap
        cfgWidely [("bad.css", "broken stylesheet ~~~")] [] ++
        CSSScanner.scanFiles (fun _ _ => Except.error ()) dyNone featuresGap
          cfgWidely [("bad.css", "broken stylesheet ~~~")] [] := by
  constructor
  · exact c7_per_file_failures_recoverable.1 parseNone parseNone dyNone
      featuresAtNone cfgWidely [("x.js", "syntax error ~~~")] { seenKeys := [] }
      "x.js" "syntax error ~~~" (by decide) (Or.inr ⟨rfl, rfl⟩)
  · exact c7_per_file_failures_recoverable.2 (fun _ _ => Except.error ()) dyNone
      featuresGap cfgWidely [("bad.css", "broken stylesheet ~~~")] [] "bad.css" []
      (Or.inr ⟨"broken stylesheet ~~~", by decide, by decide, rfl⟩)

/-!
## The walk as a stream of primitive steps

The traversal order of `walk.simple` does not depend on the scan state:
the walk of a fixed AST performs a fixed sequence of primitive steps —
candidate checks and context-flag writes — in a fixed order.  `opsNode`
lists that sequence and `walkNode_ops` proves the factorization; every
state invariant of the walk then becomes an induction over a plain list.
-/

/-- One primitive step of the walk: a `checkFeature` call, or one of the
two context-flag writes the (dead) `:exit`-less visitors perform. -/
inductive WalkOp where
  | check (name : String) (node : Node)
  | declFlags
  | assignFlag

/-- Execute one primitive step. -/
def applyOp (env : JSScanner.ScanEnv) (st : JSScanner.ScanState) (op : WalkOp) :
    JSScanner.ScanState :=
  match op with
  | .check nm nd => JSScanner.checkFeature env nm nd st
  | .declFlags => { st with inDeclaration := true, inAssignment := true }
  | .assignFlag => { st with inAssignment := true }

/-- The steps of the `ImportDeclaration` visitor's specifier loop. -/
def opsSpecs (declNode : Node) : List ImportSpec → List WalkOp
  | [] => []
  | sp :: rest =>
    (match sp with
     | .importSpecifier nm => if nm = "" then [] else [.check nm declNode]
     | _ => []) ++ opsSpecs declNode rest

mutual
/-- The step stream of one `walk.simple` dispatch, in execution order. -/
def opsNode : Node → List WalkOp
  | .program body _ => opsList body
  | .exprStmt e _ => opsNode e
  | .variableDeclaration ds _ => opsList ds
  | .variableDeclarator id init _ =>
    (if isIdentNode id then [] else opsNode id) ++ opsONode init ++ [.declFlags]
  | .assignmentExpression l r _ =>
    (if isIdentNode l then [] else opsNode l) ++ opsNode r ++ [.assignFlag]
  | .memberExpression obj prop computed line =>
    opsNode obj ++ (if computed then opsNode prop else []) ++
      (match prop with
       | .identifier pname _ =>
         if computed then []
         else [.check pname (.memberExpression obj prop computed line)]
       | _ => [])
  | .callExpression callee args line =>
    opsNode callee ++ opsList args ++
      (match callee with
       | .identifier cname _ => [.check cname (.callExpression callee args line)]
       | .memberExpression o p c l' =>
         (match p with
          | .identifier pname _ => [.check pname (.callExpression callee args line)]
          | _ => [])
       | _ => [])
  | .identifier _ _ => []
  | .literal _ => []
  | .awaitExpression a line => opsNode a ++ [.check "await" (.awaitExpression a line)]
  | .yieldExpression a line => opsONode a ++ [.check "yield" (.yieldExpression a line)]
  | .importDeclaration specs src line =>
    opsNode src ++ [.check "import" (.importDeclaration specs src line)] ++
      opsSpecs (.importDeclaration specs src line) specs
/-- Step stream of an optional child. -/
def opsONode : ONode → List WalkOp
  | .noneO => []
  | .someO nd => opsNode nd
/-- Step stream of a sibling list. -/
def opsList : NodeList → List WalkOp
  | .nilN => []
  | .consN h t => opsNode h ++ opsList t
end

theorem walkSpecs_ops (env : JSScanner.ScanEnv) (declNode : Node)
    (specs : List ImportSpec) (st : JSScanner.ScanState) :
    JSScanner.walkSpecs env declNode specs st =
      (opsSpecs declNode specs).foldl (applyOp env) st := by
  induction specs generalizing st with
  | nil => rfl
  | cons sp rest ih =>
    cases sp with
    | importSpecifier nm =>
      by_cases h : nm = ""
      · simp [JSScanner.walkSpecs, opsSpecs, h, ih]
      · simp [JSScanner.walkSpecs, opsSpecs, h, ih, applyOp]
    | importDefaultSpecifier nm => exact ih st
    | importNamespaceSpecifier nm => exact ih st

mutual
theorem walkNode_ops (env : JSScanner.ScanEnv) (n : Node)
    (st : JSScanner.ScanState) :
    JSScanner.walkNode env n st = (opsNode n).foldl (applyOp env) st := by
  cases n with
  | program body line =>
    simp only [JSScanner.walkNode, opsNode]
    exact walkList_ops env body st
  | exprStmt e line =>
    simp only [JSScanner.walkNode, opsNode]
    exact walkNode_ops env e st
  | variableDeclaration ds line =>
    simp only [JSScanner.walkNode, opsNode]
    exact walkList_ops env ds st
  | variableDeclarator id init line =>
    by_cases h : isIdentNode id = true
    · simp only [JSScanner.walkNode, opsNode, if_pos h, List.nil_append,
        List.foldl_append, List.foldl_cons, List.foldl_nil]
      rw [← walkONode_ops env init st]
      rfl
    · simp only [JSScanner.walkNode, opsNode, if_neg h, List.foldl_append,
        List.foldl_cons, List.foldl_nil]
      rw [← walkNode_ops env id st, ← walkONode_ops env init _]
      rfl
  | assignmentExpression l r line =>
    by_cases h : isIdentNode l = true
    · simp only [JSScanner.walkNode, opsNode, if_pos h, List.nil_append,
        List.foldl_append, List.foldl_cons, List.foldl_nil]
      rw [← walkNode_ops env r st]
      rfl
    · simp only [JSScanner.walkNode, opsNode, if_neg h, List.foldl_append,
        List.foldl_cons, List.foldl_nil]
      rw [← walkNode_ops env l st, ← walkNode_ops env r _]
      rfl
  | memberExpression obj prop computed line =>
    simp only [JSScanner.walkNode, opsNode, List.foldl_append]
    rw [← walkNode_ops env obj st]
    cases computed with
    | false =>
      simp only [Bool.false_eq_true, if_false, List.foldl_nil]
      cases prop with
      | identifier pname pl => rfl
      | program body l' => rfl
      | exprStmt e l' => rfl
      | variableDeclaration ds l' => rfl
      | variableDeclarator i ini l' => rfl
      | assignmentExpression a b l' => rfl
      | memberExpression o p c l' => rfl
      | callExpression c a l' => rfl
      | literal l' => rfl
      | awaitExpression a l' => rfl
      | yieldExpression a l' => rfl
      | importDeclaration s so l' => rfl
    | true =>
      simp only [if_true, List.foldl_append]
      rw [← walkNode_ops env prop _]
      cases prop with
      | identifier pname pl => rfl
      | program body l' => rfl
      | exprStmt e l' => rfl
      | variableDeclaration ds l' => rfl
      | variableDeclarator i ini l' => rfl
      | assignmentExpression a b l' => rfl
      | memberExpression o p c l' => rfl
      | callExpression c a l' => rfl
      | literal l' => rfl
      | awaitExpression a l' => rfl
      | yieldExpression a l' => rfl
      | importDeclaration s so l' => rfl
  | callExpression callee args line =>
    simp only [JSScanner.walkNode, opsNode, List.foldl_append]
    rw [← walkNode_ops env callee st, ← walkList_ops env args _]
    cases callee with
    | identifier cname cl => rfl
    | memberExpression o p c l' =>
      cases p with
      | identifier pname pl => rfl
      | program body l2 => rfl
      | exprStmt e l2 => rfl
      | variableDeclaration ds l2 => rfl
      | variableDeclarator i ini l2 => rfl
      | assignmentExpression a b l2 => rfl
      | memberExpression o2 p2 c2 l2 => rfl
      | callExpression c2 a2 l2 => rfl
      | literal l2 => rfl
      | awaitExpression a2 l2 => rfl
      | yieldExpression a2 l2 => rfl
      | importDeclaration s2 so2 l2 => rfl
    | program body l' => rfl
    | exprStmt e l' => rfl
    | variableDeclaration ds l' => rfl
    | variableDeclarator i ini l' => rfl
    | assignmentExpression a b l' => rfl
    | callExpression c a l' => rfl
    | literal l' => rfl
    | awaitExpression a l' => rfl
    | yieldExpression a l' => rfl
    | importDeclaration s so l' => rfl
  | identifier nm l => rfl
  | literal l => rfl
  | awaitExpression a line =>
    simp only [JSScanner.walkNode, opsNode, List.foldl_append, List.foldl_cons,
      List.foldl_nil]
    rw [← walkNode_ops env a st]
    rfl
  | yieldExpression a line =>
    simp only [JSScanner.walkNode, opsNode, List.foldl_append, List.foldl_cons,
      List.foldl_nil]
    rw [← walkONode_ops env a st]
    rfl
  | importDeclaration specs src line =>
    simp only [JSScanner.walkNode, opsNode, List.foldl_append, List.foldl_cons,
      List.foldl_nil]
    rw [← walkNode_ops env src st, walkSpecs_ops]
    rfl

theorem walkONode_ops (env : JSScanner.ScanEnv) (o : ONode)
    (st : JSScanner.ScanState) :
    JSScanner.walkONode env o st = (opsONode o).foldl (applyOp env) st := by
  cases o with
  | noneO => rfl
  | someO nd =>
    simp only [JSScanner.walkONode, opsONode]
    exact walkNode_ops env nd st

theorem walkList_ops (env : JSScanner.ScanEnv) (l : NodeList)
    (st : JSScanner.ScanState) :
    JSScanner.walkList env l st = (opsList l).foldl (applyOp env) st := by
  cases l with
  | nilN => rfl
  | consN h t =>
    simp only [JSScanner.walkList, opsList, List.foldl_append]
    rw [← walkNode_ops env h st]
    exact walkList_ops env t _
end

/-!
## State invariants of the walk
-/

section WalkInvariants

open JSScanner FeatureManager

/-- How one (or many) walk steps may extend the scan state: the seen-key
set only grows, and the violations list gains a tail of records whose
keys are fresh (absent before, recorded after), pairwise distinct, and
none of which the whitelist test would have absorbed. -/
def StepExt (env : ScanEnv) (st st' : ScanState) : Prop :=
  (∀ k ∈ st.seenKeys, k ∈ st'.seenKeys) ∧
  ∃ tail, st'.violations = st.violations ++ tail ∧
    (∀ v ∈ tail, keyOf v ∈ st'.seenKeys ∧ keyOf v ∉ st.seenKeys ∧
      isFalsePositive env.cfg v.feature = false) ∧
    List.Pairwise (fun a b => keyOf a ≠ keyOf b) tail

theorem stepExt_refl (env : ScanEnv) (st : ScanState) : StepExt env st st :=
  ⟨fun _ hk => hk, [], by simp, by simp, List.Pairwise.nil⟩

theorem stepExt_trans {env : ScanEnv} {st st' st'' : ScanState}
    (h1 : StepExt env st st') (h2 : StepExt env st' st'') :
    StepExt env st st'' := by
  obtain ⟨m1, t1, e1, p1, pw1⟩ := h1
  obtain ⟨m2, t2, e2, p2, pw2⟩ := h2
  refine ⟨fun k hk => m2 k (m1 k hk), t1 ++ t2, ?_, ?_, ?_⟩
  · rw [e2, e1, List.append_assoc]
  · intro v hv
    rcases List.mem_append.mp hv with h | h
    · obtain ⟨hin, hout, hfp⟩ := p1 v h
      exact ⟨m2 _ hin, hout, hfp⟩
    · obtain ⟨hin, hout, hfp⟩ := p2 v h
      exact ⟨hin, fun hc => hout (m1 _ hc), hfp⟩
  · rw [List.pairwise_append]
    refine ⟨pw1, pw2, fun a ha b hb => ?_⟩
    intro hk
    exact (p2 b hb).2.1 (hk ▸ (p1 a ha).1)

theorem checkFeature_stepExt (env : ScanEnv) (nm : String) (nd : Node)
    (st : ScanState) : StepExt env st (checkFeature env nm nd st) := by
  by_cases h1 : isFalsePositive env.cfg (jsToLower nm) = true
  · simp only [checkFeature, h1, if_true]
    exact stepExt_refl env st
  · by_cases h2 : isCompliantCore env.dateYear env.features env.cfg
        (jsToLower nm) = true
    · simp only [checkFeature, h1, if_false, h2, if_true, Bool.false_eq_true]
      · exact stepExt_refl env st
    · by_cases h3 : st.seenKeys.contains
          (env.filePath ++ ":" ++ toString (nodeLine nd) ++ ":" ++ jsToLower nm) =
          true
      · simp only [checkFeature, h1, h2, h3, Bool.false_eq_true, if_false, if_true]
        exact stepExt_refl env st
      · have hnot : (env.filePath ++ ":" ++ toString (nodeLine nd) ++ ":" ++
            jsToLower nm) ∉ st.seenKeys := by
          intro hmem
          exact h3 (List.contains_iff_exists_mem_beq.mpr ⟨_, hmem, by simp⟩)
        simp only [checkFeature, h1, h2, h3, Bool.false_eq_true, if_false]
        refine ⟨fun k hk => List.mem_cons_of_mem _ hk, _, rfl, ?_, ?_⟩
        · intro v hv
          rcases List.mem_singleton.mp hv with rfl
          refine ⟨List.mem_cons_self _ _, hnot, ?_⟩
          exact Bool.not_eq_true _ |>.mp h1
        · exact List.pairwise_singleton _ _

theorem applyOp_stepExt (env : ScanEnv) (st : ScanState) (op : WalkOp) :
    StepExt env st (applyOp env st op) := by
  cases op with
  | check nm nd => exact checkFeature_stepExt env nm nd st
  | declFlags =>
    exact ⟨fun _ hk => hk, [], by simp [applyOp], by simp, List.Pairwise.nil⟩
  | assignFlag =>
    exact ⟨fun _ hk => hk, [], by simp [applyOp], by simp, List.Pairwise.nil⟩

theorem foldlOps_stepExt (env : ScanEnv) (ops : List WalkOp) :
    ∀ st : ScanState, StepExt env st (ops.foldl (applyOp env) st) := by
  induction ops with
  | nil => intro st; exact stepExt_refl env st
  | cons op rest ih =>
    intro st
    exact stepExt_trans (applyOp_stepExt env st op) (ih (applyOp env st op))

/-- Re-running a step stream from a state whose seen-key set already
covers everything a run of the stream records leaves violations and seen
keys untouched: every candidate the stream would push is already seen. -/
theorem foldlOps_stable (env : ScanEnv) (ops : List WalkOp) :
    ∀ st u : ScanState,
      (∀ k ∈ (ops.foldl (applyOp env) st).seenKeys, k ∈ u.seenKeys) →
      (ops.foldl (applyOp env) u).violations = u.violations ∧
      (ops.foldl (applyOp env) u).seenKeys = u.seenKeys := by
  induction ops with
  | nil => intro st u _; exact ⟨rfl, rfl⟩
  | cons op rest ih =>
    intro st u h
    rw [List.foldl_cons] at h ⊢
    cases op with
    | declFlags => exact ih (applyOp env st .declFlags) (applyOp env u .declFlags) h
    | assignFlag =>
      exact ih (applyOp env st .assignFlag) (applyOp env u .assignFlag) h
    | check nm nd =>
      by_cases h1 : isFalsePositive env.cfg (jsToLower nm) = true
      · have hueq : applyOp env u (.check nm nd) = u := by
          simp [applyOp, checkFeature, h1]
        have hseq : applyOp env st (.check nm nd) = st := by
          simp [applyOp, checkFeature, h1]
        rw [hueq]
        rw [hseq] at h
        exact ih st u h
      · by_cases h2 : isCompliantCore env.dateYear env.features env.cfg
            (jsToLower nm) = true
        · have hueq : applyOp env u (.check nm nd) = u := by
            simp [applyOp, checkFeature, h1, h2]
          have hseq : applyOp env st (.check nm nd) = st := by
            simp [applyOp, checkFeature, h1, h2]
          rw [hueq]
          rw [hseq] at h
          exact ih st u h
        · have h5 : (env.filePath ++ ":" ++ toString (nodeLine nd) ++ ":" ++
              jsToLower nm) ∈ (applyOp env st (.check nm nd)).seenKeys := by
            by_cases h3 : st.seenKeys.contains
                (env.filePath ++ ":" ++ toString (nodeLine nd) ++ ":" ++
                  jsToLower nm) = true
            · have hmem := List.contains_iff_exists_mem_beq.mp h3
              obtain ⟨a, ha, hbeq⟩ := hmem
              have : (env.filePath ++ ":" ++ toString (nodeLine nd) ++ ":" ++
                  jsToLower nm) = a := by simpa using hbeq
              simp only [applyOp, checkFeature, h1, h2, h3, Bool.false_eq_true,
                if_false, if_true]
              exact this ▸ ha
            · simp only [applyOp, checkFeature, h1, h2, h3, Bool.false_eq_true,
                if_false]
              exact List.mem_cons_self _ _
          have hkin := (foldlOps_stepExt env rest (applyOp env st (.check nm nd))).1
            _ h5
          have hku := h _ hkin
          have hueq : applyOp env u (.check nm nd) = u := by
            simp [applyOp, checkFeature, h1, h2, hku]
          rw [hueq]
          exact ih (applyOp env st (.check nm nd)) u h

/-- The `StepExt` facts of one `scanFile` call, phrased on the scanner
state and the returned list. -/
theorem scanFile_ext (parseJS parseTS : String → Option Node)
    (dateYear : String → Option Int) (features : List (String × FeatureData))
    (cfg : Config) (fsys : List (String × String)) (scanner : JSScannerState)
    (p : String) :
    (∀ k ∈ scanner.seenKeys,
      k ∈ (scanFile parseJS parseTS dateYear features cfg fsys scanner p).1.seenKeys) ∧
    (∀ v ∈ (scanFile parseJS parseTS dateYear features cfg fsys scanner p).2,
      keyOf v ∈ (scanFile parseJS parseTS dateYear features cfg fsys scanner p).1.seenKeys ∧
      keyOf v ∉ scanner.seenKeys ∧
      FeatureManager.isFalsePositive cfg v.feature = false) ∧
    List.Pairwise (fun a b => keyOf a ≠ keyOf b)
      (scanFile parseJS parseTS dateYear features cfg fsys scanner p).2 := by
  have hwalk : ∀ ast : Node,
      (∀ k ∈ scanner.seenKeys,
        k ∈ (walkNode
          { dateYear := dateYear, features := features, cfg := cfg, filePath := p }
          ast { seenKeys := scanner.seenKeys, violations := [],
                inDeclaration := false, inAssignment := false }).seenKeys) ∧
      (∀ v ∈ (walkNode
          { dateYear := dateYear, features := features, cfg := cfg, filePath := p }
          ast { seenKeys := scanner.seenKeys, violations := [],
                inDeclaration := false, inAssignment := false }).violations,
        keyOf v ∈ (walkNode
          { dateYear := dateYear, features := features, cfg := cfg, filePath := p }
          ast { seenKeys := scanner.seenKeys, violations := [],
                inDeclaration := false, inAssignment := false }).seenKeys ∧
        keyOf v ∉ scanner.seenKeys ∧
        FeatureManager.isFalsePositive cfg v.feature = false) ∧
      List.Pairwise (fun a b => keyOf a ≠ keyOf b)
        (walkNode
          { dateYear := dateYear, features := features, cfg := cfg, filePath := p }
          ast { seenKeys := scanner.seenKeys, violations := [],
                inDeclaration := false, inAssignment := false }).violations := by
    intro ast
    have hext := foldlOps_stepExt
      { dateYear := dateYear, features := features, cfg := cfg, filePath := p }
      (opsNode ast)
      { seenKeys := scanner.seenKeys, violations := [],
        inDeclaration := false, inAssignment := false }
    rw [← walkNode_ops] at hext
    obtain ⟨mono, tail, he, hp, hpw⟩ := hext
    rw [List.nil_append] at he
    refine ⟨mono, ?_, ?_⟩
    · intro v hv
      exact hp v (he ▸ hv)
    · exact he ▸ hpw
  cases hl : fsys.lookup p with
  | none =>
    simp only [scanFile, hl]
    exact ⟨fun _ hk => hk, fun v hv => absurd hv (List.not_mem_nil v),
      List.Pairwise.nil⟩
  | some code =>
    by_cases hts : (strEndsWith p ".ts" || strEndsWith p ".tsx") = true
    · cases hast : safeParse parseTS code with
      | none =>
        simp only [scanFile, hl, hts, if_true, hast]
        exact ⟨fun _ hk => hk, fun v hv => absurd hv (List.not_mem_nil v),
          List.Pairwise.nil⟩
      | some ast =>
        simp only [scanFile, hl, hts, if_true, hast]
        exact hwalk ast
    · by_cases hjs : (strEndsWith p ".js" || strEndsWith p ".jsx") = true
      · cases hast : safeParse parseJS code with
        | none =>
          simp only [scanFile, hl, hts, Bool.false_eq_true, if_false, hjs,
            if_true, hast]
          exact ⟨fun _ hk => hk, fun v hv => absurd hv (List.not_mem_nil v),
            List.Pairwise.nil⟩
        | some ast =>
          simp only [scanFile, hl, hts, Bool.false_eq_true, if_false, hjs,
            if_true, hast]
          exact hwalk ast
      · simp only [scanFile, hl, hts, Bool.false_eq_true, if_false, hjs]
        exact ⟨fun _ hk => hk, fun v hv => absurd hv (List.not_mem_nil v),
          List.Pairwise.nil⟩

/-- The `StepExt` facts of a whole driver loop over a file list. -/
theorem scanMany_ext (parseJS parseTS : String → Option Node)
    (dateYear : String → Option Int) (features : List (String × FeatureData))
    (cfg : Config) (fsys : List (String × String)) :
    ∀ (files : List String) (scanner : JSScannerState),
    (∀ k ∈ scanner.seenKeys,
      k ∈ (scanMany parseJS parseTS dateYear features cfg fsys scanner files).1.seenKeys) ∧
    (∀ v ∈ (scanMany parseJS parseTS dateYear features cfg fsys scanner files).2,
      keyOf v ∈ (scanMany parseJS parseTS dateYear features cfg fsys scanner files).1.seenKeys ∧
      keyOf v ∉ scanner.seenKeys ∧
      FeatureManager.isFalsePositive cfg v.feature = false) ∧
    List.Pairwise (fun a b => keyOf a ≠ keyOf b)
      (scanMany parseJS parseTS dateYear features cfg fsys scanner files).2 := by
  intro files
  induction files with
  | nil =>
    intro scanner
    exact ⟨fun _ hk => hk, fun v hv => absurd hv (List.not_mem_nil v),
      List.Pairwise.nil⟩
  | cons f fs ih =>
    intro scanner
    simp only [scanMany]
    obtain ⟨m1, p1, pw1⟩ :=
      scanFile_ext parseJS parseTS dateYear features cfg fsys scanner f
    obtain ⟨m2, p2, pw2⟩ :=
      ih (scanFile parseJS parseTS dateYear features cfg fsys scanner f).1
    refine ⟨fun k hk => m2 k (m1 k hk), ?_, ?_⟩
    · intro v hv
      rcases List.mem_append.mp hv with h | h
      · obtain ⟨hin, hout, hfp⟩ := p1 v h
        exact ⟨m2 _ hin, hout, hfp⟩
      · obtain ⟨hin, hout, hfp⟩ := p2 v h
        exact ⟨hin, fun hc => hout (m1 _ hc), hfp⟩
    · rw [List.pairwise_append]
      refine ⟨pw1, pw2, fun a ha b hb hk => ?_⟩
      exact (p2 b hb).2.1 (hk ▸ (p1 a ha).1)

end WalkInvariants

/-- Rescanning the same AST from the seen-key set the first walk left
behind records nothing new. -/
theorem walk_rescan (env : JSScanner.ScanEnv) (ast : Node) (seen0 : List String) :
    (JSScanner.walkNode env ast
      { seenKeys := (JSScanner.walkNode env ast
          { seenKeys := seen0, violations := [], inDeclaration := false,
            inAssignment := false }).seenKeys,
        violations := [], inDeclaration := false,
        inAssignment := false }).violations = [] := by
  rw [walkNode_ops, walkNode_ops]
  exact (foldlOps_stable env (opsNode ast)
    { seenKeys := seen0, violations := [], inDeclaration := false,
      inAssignment := false }
    { seenKeys := (List.foldl (applyOp env)
        { seenKeys := seen0, violations := [], inDeclaration := false,
          inAssignment := false } (opsNode ast)).seenKeys,
      violations := [], inDeclaration := false, inAssignment := false }
    (fun _ hk => hk)).1

section FinalClaims

open JSScanner

/-- C9 (amended): the violation sequence is rebuilt per invocation, but
the dedup key set `this.seenKeys` persists on the scanner instance, so a
second `scanFile` call with the same arguments on the same scanner
always returns the empty sequence — every key the first call could
record is already seen.  (Scans of distinct files are keyed under their
own paths and a fresh scanner reproduces the original sequence, but
repeating a file on one instance does not.) -/
theorem c9_rescan_amended (parseJS parseTS : String → Option Node)
    (dateYear : String → Option Int) (features : List (String × FeatureData))
    (cfg : Config) (fsys : List (String × String)) (scanner : JSScannerState)
    (f : String) :
    (scanFile parseJS parseTS dateYear features cfg fsys
      (scanFile parseJS parseTS dateYear features cfg fsys scanner f).1 f).2 =
      [] := by
  cases hl : fsys.lookup f with
  | none => simp [scanFile, hl]
  | some code =>
    by_cases hts : (strEndsWith f ".ts" || strEndsWith f ".tsx") = true
    · cases hast : safeParse parseTS code with
      | none => simp [scanFile, hl, hts, hast]
      | some ast =>
        simp only [scanFile, hl, hts, if_true, hast]
        exact walk_rescan
          { dateYear := dateYear, features := features, cfg := cfg, filePath := f }
          ast scanner.seenKeys
    · by_cases hjs : (strEndsWith f ".js" || strEndsWith f ".jsx") = true
      · cases hast : safeParse parseJS code with
        | none =>
          simp [scanFile, hl, hts, hjs, hast]
        | some ast =>
          simp only [scanFile, hl, hts, Bool.false_eq_true, if_false, hjs,
            if_true, hast]
          exact walk_rescan
            { dateYear := dateYear, features := features, cfg := cfg,
              filePath := f }
            ast scanner.seenKeys
      · simp [scanFile, hl, hts, hjs]

/-- C5 (amended): with `jsSettings.ignoreCommonFalsePositives` left at
its default `true`, a candidate whose lowercase form is in the
configured whitelist is never reported by the script scanner, whatever
the oracle would decide: no record of a whole JS run carries such a
feature id.  (With the setting `false` the whitelist is void — the
counterexample.) -/
theorem c5_whitelist_amended (parseJS parseTS : String → Option Node)
    (dateYear : String → Option Int) (features : List (String × FeatureData))
    (cfg : Config) (fsys : List (String × String)) (scanner : JSScannerState)
    (files : List String) (name : String)
    (hig : cfg.ignoreCommonFalsePositives = true)
    (hwl : cfg.jsWhitelist.contains (jsToLower name) = true) :
    ∀ v ∈ (scanMany parseJS parseTS dateYear features cfg fsys scanner files).2,
      v.feature ≠ jsToLower name := by
  intro v hv heq
  have hfp := ((scanMany_ext parseJS parseTS dateYear features cfg fsys files
    scanner).2.1 v hv).2.2
  simp only [FeatureManager.isFalsePositive] at hfp
  rw [hig, heq, jsToLower_idem, hwl] at hfp
  simp at hfp

/-- Whitelist `["push"]` with the default setting on, for the C5
witness. -/
def cfgPushWl : Config :=
  { targetBaseline := "widely", failOnNewly := false, jsWhitelist := ["push"],
    ignoreCommonFalsePositives := true }

/-- Witness for `c5_whitelist_amended`: in the `array.at(-1);` run under
a `["push"]` whitelist, the reported record cannot carry the whitelisted
id. -/
theorem c5_whitelist_amended_witness : vAtMember.feature ≠ jsToLower "push" :=
  c5_whitelist_amended parseDemo parseNone dyNone featuresAtNone cfgPushWl
    fsysDemo { seenKeys := [] } ["t.js"] "push" (by decide) (by decide)
    vAtMember (by decide)

/-- C6 (amended): the `(file, line, featureId)` dedup governs the script
scanner: over any whole JS run on one (fresh) scanner, no two records
share a key, and at a shared site the first structural match wins — the
`array.at(-1);` scan keeps exactly the earlier `property_access` match
and suppresses the later call-expression match at the same key, and a
call of a bare name yields exactly one record.  CSS records are pushed
per analyzer report with no dedup (see the counterexample). -/
theorem c6_dedup_amended :
    (∀ (parseJS parseTS : String → Option Node)
        (dateYear : String → Option Int)
        (features : List (String × FeatureData)) (cfg : Config)
        (fsys : List (String × String)) (files : List String),
      List.Pairwise (fun a b => keyOf a ≠ keyOf b)
        (scanMany parseJS parseTS dateYear features cfg fsys
          { seenKeys := [] } files).2) ∧
    (scanFile parseDemo parseNone dyNone featuresAtNone cfgWidely fsysDemo
        { seenKeys := [] } "t.js").2 = [vAtMember] ∧
    (scanFile parseDemo parseNone dyNone featuresAtNone cfgWidely fsysDemo
        { seenKeys := [] } "u.js").2 =
      [{ file := "u.js", line := Option.some 1, feature := "at", type := "js",
         context := Option.some "function_call", message := Option.none }] := by
  refine ⟨?_, by decide, by decide⟩
  intro parseJS parseTS dateYear features cfg fsys files
  exact (scanMany_ext parseJS parseTS dateYear features cfg fsys files
    { seenKeys := [] }).2.2

end FinalClaims
